import Mathlib

/- Verification development for the Nox Smart Mode scheduler
(`NoxScheduler` and its helpers in `src/content.ts`).

Embedding conventions:
* JavaScript numbers are embedded as rationals; `Math.pow(x, 2.4)` — the only
  non-rational operation, used inside `luma` — is abstracted as an environment
  parameter `pow24`, and every theorem holds for an arbitrary `pow24`.
* A JavaScript number that may be `NaN` (the result of `parseInt` on invalid
  digits) is embedded as `Option ℚ`, with `none` standing for `NaN`; `NaN`
  propagates through arithmetic and makes the `<` / `>` threshold comparisons
  false, exactly as in the source.
* A JavaScript `Set<Element>` is an insertion-ordered duplicate-free
  collection; it is embedded as a list with `jsAdd` (append when absent) and
  `jsDelete` (remove).
* The wall clock read by `performance.now()` inside the READ/WRITE loops is
  nondeterministic; it is embedded as a time oracle giving the elapsed time at
  each loop iteration, compared against the configured budgets exactly as the
  source does.
* DOM elements and shadow roots are opaque handles (`Nat`); the relevant facts
  about an element (`instanceof HTMLElement`, its computed style) are supplied
  by an environment.
* Browser callback scheduling (`requestAnimationFrame`, `requestIdleCallback`,
  `queueMicrotask`, observer callbacks) is embedded as a labelled transition
  system: the scheduler fields (`frameId`, `idleId`, `microtaskScheduled`, the
  observer registries) live in the state, ghost booleans track whether a frame
  or idle callback is genuinely pending, and each callback firing is a step
  guarded accordingly. -/

namespace Nox

abbrev Elem := Nat

abbrev ShadowId := Nat

/-- `Set.add`: insertion-ordered, appends only when absent. -/
def jsAdd {α : Type} [DecidableEq α] (x : α) (l : List α) : List α :=
  if x ∈ l then l else l ++ [x]

/-- `Set.delete`: removes the element (sets hold no duplicates). -/
def jsDelete {α : Type} [DecidableEq α] (x : α) (l : List α) : List α :=
  l.filter (fun y => decide (y ≠ x))

/-- The tri-state verdict `'already-dark' | 'bright-bg' | 'mid'`. -/
inductive Classification : Type
  | alreadyDark
  | brightBg
  | mid
deriving DecidableEq

/-- `interface CacheEntry { classification; styleKey }`. -/
structure CacheEntry : Type where
  classification : Classification
  styleKey : String
deriving DecidableEq

/-- The tone-affecting subset of `CSSStyleDeclaration` read by the source
(all CSSOM values are strings). -/
structure ComputedStyle : Type where
  backgroundColor : String
  backgroundImage : String
  opacity : String
  filter : String
  mixBlendMode : String
deriving DecidableEq

/-- A JavaScript number that can be `Infinity` (for the `x / 0 || 0` metric
updates); `NaN || 0` collapses to `0` at the only place `NaN` could arise. -/
inductive JSNum : Type
  | num (q : ℚ)
  | inf
deriving DecidableEq

/-- `x / n || 0` as used for the rolling averages: division by zero gives
`Infinity` (truthy, kept) unless the numerator is also zero, in which case the
`NaN` is replaced by `0` by the `|| 0`. -/
def jsDivOr0 (x : ℚ) (n : Nat) : JSNum :=
  if n = 0 then (if x = 0 then JSNum.num 0 else JSNum.inf)
  else JSNum.num (x / (n : ℚ))

/-- `Required<NoxConfig>`. -/
structure NoxConfig : Type where
  darkThreshold : ℚ
  brightThreshold : ℚ
  readBudgetMs : ℚ
  writeBudgetMs : ℚ
  maxQueue : ℚ
  observeResizeMinChildren : ℚ
  debug : Bool
deriving DecidableEq

/-- `DEFAULTS` from `src/content.ts`. -/
def DEFAULTS : NoxConfig where
  darkThreshold := 0.10
  brightThreshold := 0.85
  readBudgetMs := 4
  writeBudgetMs := 4
  maxQueue := 5000
  observeResizeMinChildren := 10
  debug := false

/-- `NoxMetrics`. -/
structure NoxMetrics : Type where
  reads : Nat
  writes : Nat
  cacheHits : Nat
  avgReadNs : JSNum
  avgWriteNs : JSNum
  queuedVisible : Nat
  queuedHidden : Nat
deriving DecidableEq

/-- The mutable fields of a `NoxScheduler` instance, together with the ghost
booleans `framePending` / `idlePending` recording whether a frame or idle
callback is genuinely pending in the browser (the source's `frameId` /
`idleId` fields are kept separately because the source never clears `frameId`
when the frame callback fires). `ioObserved` is the target set of the
`IntersectionObserver`, `roObserved` of the `ResizeObserver` (the source never
calls `ro.observe`, so it stays empty), `moConnected` says whether the
document-level `MutationObserver` is observing, `shadowObservers` is the
registry of per-shadow-root observers, and `attachShadowHooked` records that
`Element.prototype.attachShadow` has been patched (done in the constructor and
never undone). -/
structure NoxState : Type where
  config : NoxConfig
  qVisible : List Elem
  qHidden : List Elem
  cache : Elem → Option CacheEntry
  ioObserved : List Elem
  roObserved : List Elem
  moConnected : Bool
  shadowObservers : List ShadowId
  frameId : Option Nat
  framePending : Bool
  idleId : Option Nat
  idlePending : Bool
  backpressure : Bool
  microtaskScheduled : Bool
  consecutiveFrames : Nat
  attachShadowHooked : Bool
  nextId : Nat
  metrics : NoxMetrics

/-- Facts the DOM supplies about an element: `el instanceof HTMLElement`, its
computed style, plus the abstracted `Math.pow(·, 2.4)`. -/
structure DomEnv : Type where
  isHTML : Elem → Bool
  style : Elem → ComputedStyle
  pow24 : ℚ → ℚ

/-- The `performance.now()` readings of one `runCycle` call: elapsed time
since phase start at the `k`-th loop iteration of each phase, and the total
measured durations used for the metric averages. -/
structure TimeOracle : Type where
  readElapsed : Nat → ℚ
  writeElapsed : Nat → ℚ
  readDur : ℚ
  writeDur : ℚ

/-- `luma`'s per-channel gamma expansion (`v` is the 0–255 channel value,
possibly `NaN`): `v /= 255; v <= 0.04045 ? v / 12.92 :
Math.pow((v + 0.055) / 1.055, 2.4)`. -/
def gammaExpand (pow24 : ℚ → ℚ) : Option ℚ → Option ℚ
  | none => none
  | some v0 =>
    let v := v0 / 255
    some (if v ≤ 0.04045 then v / 12.92 else pow24 ((v + 0.055) / 1.055))

/-- `luma(rgb)`: linearized sRGB relative luminance with BT.709 weights;
`none` is a `NaN` result (it arises only from `NaN` channels and propagates
through the weighted sum). -/
def luma (pow24 : ℚ → ℚ) (rgb : Option ℚ × Option ℚ × Option ℚ) : Option ℚ :=
  match gammaExpand pow24 rgb.1, gammaExpand pow24 rgb.2.1, gammaExpand pow24 rgb.2.2 with
  | some r, some g, some b => some (0.2126 * r + 0.7152 * g + 0.0722 * b)
  | _, _, _ => none

def isJsSpace (c : Char) : Bool :=
  c = ' ' ∨ c = '\t' ∨ c = '\n' ∨ c = '\r' ∨ c = Char.ofNat 11 ∨ c = Char.ofNat 12

def digitsVal (ds : List Char) : Nat :=
  ds.foldl (fun a c => a * 10 + (c.toNat - '0'.toNat)) 0

/-- Greedy `\d+`: the maximal digit run and the rest (none when empty).
Backtracking never helps this pattern since each `\d+` / `\s*` is followed by
a character outside its class, so the greedy scan is equivalent to the
regex. -/
def takeDigits (cs : List Char) : Option (Nat × List Char) :=
  let ds := cs.takeWhile Char.isDigit
  if ds.isEmpty then none else some (digitsVal ds, cs.dropWhile Char.isDigit)

/-- One attempt of `/rgba?\((\d+),\s*(\d+),\s*(\d+)/` anchored at the head of
the list. -/
def matchRgbAt (cs : List Char) : Option (Nat × Nat × Nat) :=
  match cs with
  | 'r' :: 'g' :: 'b' :: rest =>
    let rest1 := match rest with
      | 'a' :: r => r
      | _ => rest
    match rest1 with
    | '(' :: r2 =>
      match takeDigits r2 with
      | some (n1, r3) =>
        match r3 with
        | ',' :: r4 =>
          match takeDigits (r4.dropWhile isJsSpace) with
          | some (n2, r6) =>
            match r6 with
            | ',' :: r7 =>
              match takeDigits (r7.dropWhile isJsSpace) with
              | some (n3, _) => some (n1, n2, n3)
              | none => none
            | _ => none
          | none => none
        | _ => none
      | none => none
    | _ => none
  | _ => none

/-- `color.match(...)`: try the pattern at every position, first hit wins. -/
def searchRgb : List Char → Option (Nat × Nat × Nat)
  | [] => none
  | c :: rest =>
    match matchRgbAt (c :: rest) with
    | some t => some t
    | none => searchRgb rest

def hexDigitVal (c : Char) : Option Nat :=
  if c.isDigit then some (c.toNat - '0'.toNat)
  else if 'a' ≤ c ∧ c ≤ 'f' then some (c.toNat - 'a'.toNat + 10)
  else if 'A' ≤ c ∧ c ≤ 'F' then some (c.toNat - 'A'.toNat + 10)
  else none

def isHexDigit (c : Char) : Bool := (hexDigitVal c).isSome

def hexVal (ds : List Char) : Nat :=
  ds.foldl (fun a c => a * 16 + ((hexDigitVal c).getD 0)) 0

def hexDigitsParse (cs0 : List Char) : Option Nat :=
  let cs := match cs0 with
    | '0' :: 'x' :: r => r
    | '0' :: 'X' :: r => r
    | r => r
  let ds := cs.takeWhile isHexDigit
  if ds.isEmpty then none else some (hexVal ds)

/-- `parseInt(str, 16)`: skip whitespace, optional sign, optional `0x`,
longest valid-digit run; an empty run is `NaN` (`none`). -/
def jsParseIntHex (cs0 : List Char) : Option ℚ :=
  match cs0.dropWhile isJsSpace with
  | '-' :: r => (hexDigitsParse r).map (fun n => -(n : ℚ))
  | '+' :: r => (hexDigitsParse r).map (fun n => (n : ℚ))
  | r => (hexDigitsParse r).map (fun n => (n : ℚ))

/-- `parseColor`: `rgb()/rgba()` via the regex (the alpha channel is never
inspected), then 3- and 6-digit hex, else `null`. Channels are `Option ℚ`
because `parseInt(·, 16)` can produce `NaN`. -/
def parseColor (color : String) : Option (Option ℚ × Option ℚ × Option ℚ) :=
  match searchRgb color.data with
  | some (r, g, b) => some (some (r : ℚ), some (g : ℚ), some (b : ℚ))
  | none =>
    if color.startsWith ("#") then
      match color.data.drop 1 with
      | [a, b, c] => some (jsParseIntHex [a, a], jsParseIntHex [b, b], jsParseIntHex [c, c])
      | [a, b, c, d, e, f] => some (jsParseIntHex [a, b], jsParseIntHex [c, d], jsParseIntHex [e, f])
      | _ => none
    else none

/-- `styleKeyForTone`. -/
def styleKeyForTone (cs : ComputedStyle) : String :=
  let bgImg := if cs.backgroundImage ≠ "none" then "img" else ""
  cs.backgroundColor ++ "|" ++ bgImg ++ "|o" ++ cs.opacity ++ "|f" ++ cs.filter
    ++ "|m" ++ cs.mixBlendMode

/-- `this.cache.set(el, entry)`. -/
def setCache (el : Elem) (e : CacheEntry) (s : NoxState) : NoxState :=
  { s with cache := fun x => if x = el then some e else s.cache x }

/-- The cache-miss tail of `classify`: parse the background color (failure
caches and returns `'mid'`), compute the luminance (a `NaN` luminance fails
both threshold comparisons, yielding `'mid'`), threshold, cache, return. -/
def classifyMiss (env : DomEnv) (cs : ComputedStyle) (styleKey : String) (el : Elem)
    (s : NoxState) : Classification × NoxState :=
  match parseColor cs.backgroundColor with
  | none => (Classification.mid, setCache el ⟨Classification.mid, styleKey⟩ s)
  | some rgb =>
    match luma env.pow24 rgb with
    | none => (Classification.mid, setCache el ⟨Classification.mid, styleKey⟩ s)
    | some y =>
      let c : Classification :=
        if y < s.config.darkThreshold then Classification.alreadyDark
        else if y > s.config.brightThreshold then Classification.brightBg
        else Classification.mid
      (c, setCache el ⟨c, styleKey⟩ s)

/-- `NoxScheduler.classify`. -/
def classify (env : DomEnv) (el : Elem) (s : NoxState) : Classification × NoxState :=
  if env.isHTML el = false then (Classification.mid, s)
  else
    let cs := env.style el
    let styleKey := styleKeyForTone cs
    match s.cache el with
    | some cached =>
      if cached.styleKey = styleKey then
        (cached.classification,
         { s with metrics := { s.metrics with cacheHits := s.metrics.cacheHits + 1 } })
      else classifyMiss env cs styleKey el s
    | none => classifyMiss env cs styleKey el s

/-- `NoxScheduler.scheduleWork` up to the microtask boundary: coalesce via the
`microtaskScheduled` flag (the queued microtask body is `scheduleWorkMicrotask`
below, fired as a separate step). -/
def scheduleWork (s : NoxState) : NoxState :=
  if s.microtaskScheduled then s else { s with microtaskScheduled := true }

/-- `NoxScheduler.enqueue`. -/
def enqueue (s : NoxState) (el : Elem) : NoxState :=
  if el ∈ s.qVisible ∨ el ∈ s.qHidden then s
  else scheduleWork { s with ioObserved := jsAdd el s.ioObserved }

/-- The back-pressure check of the microtask body: if the total queued work
exceeds `maxQueue`, disconnect the document `MutationObserver` and raise the
flag (unless already raised); if the flag is raised and the total has dropped
below `maxQueue * 0.8`, re-observe and clear it; otherwise leave both
unchanged. -/
def backpressureCheck (s1 : NoxState) : NoxState :=
  let totalQueued : Nat := s1.qVisible.length + s1.qHidden.length
  if (totalQueued : ℚ) > s1.config.maxQueue then
    if s1.backpressure then s1
    else { s1 with moConnected := false, backpressure := true }
  else if s1.backpressure ∧ (totalQueued : ℚ) < s1.config.maxQueue * 0.8 then
    { s1 with moConnected := true, backpressure := false }
  else s1

/-- The frame-scheduling tail of the microtask body: schedule a frame when
`!this.frameId` and the visible queue is non-empty. -/
def scheduleFrameIfNeeded (s2 : NoxState) : NoxState :=
  if s2.frameId = none ∧ s2.qVisible ≠ [] then
    { s2 with frameId := some (s2.nextId + 1), framePending := true, nextId := s2.nextId + 1 }
  else s2

/-- The body of the microtask queued by `scheduleWork`: clear the coalescing
flag, run the back-pressure check with hysteresis, then schedule a frame when
`!this.frameId` and the visible queue is non-empty. -/
def scheduleWorkMicrotask (s0 : NoxState) : NoxState :=
  scheduleFrameIfNeeded (backpressureCheck { s0 with microtaskScheduled := false })

/-- `NoxScheduler.scheduleIdleWork`. -/
def scheduleIdleWork (s : NoxState) : NoxState :=
  if s.idleId.isSome ∨ s.qHidden = [] then s
  else { s with idleId := some (s.nextId + 1), idlePending := true, nextId := s.nextId + 1 }

/-- `this.qHidden.delete(el); this.qVisible.add(el)` on a queue pair. -/
def promoteOne (p : List Elem × List Elem) (x : Elem) : List Elem × List Elem :=
  (jsAdd x p.1, jsDelete x p.2)

/-- The idle callback body: clear `idleId`, promote up to 100 hidden elements
(snapshot via `Array.from(...).slice(0, 100)`) into the visible queue, then
re-arm. -/
def idleFire (s : NoxState) : NoxState :=
  let s1 := { s with idleId := none, idlePending := false }
  let vh := (s1.qHidden.take 100).foldl promoteOne (s1.qVisible, s1.qHidden)
  let s2 := { s1 with qVisible := vh.1, qHidden := vh.2 }
  if s2.qVisible ≠ [] then scheduleWork s2
  else if s2.qHidden ≠ [] then scheduleIdleWork s2
  else s2

/-- One `IntersectionObserver` entry: move the target between the two queues
according to `isIntersecting`. -/
def ioEntry (s : NoxState) (e : Elem × Bool) : NoxState :=
  if e.2 then { s with qHidden := jsDelete e.1 s.qHidden, qVisible := jsAdd e.1 s.qVisible }
  else { s with qVisible := jsDelete e.1 s.qVisible, qHidden := jsAdd e.1 s.qHidden }

/-- The `IntersectionObserver` callback: process the entries, then
`scheduleWork()`. -/
def ioCallback (entries : List (Elem × Bool)) (s : NoxState) : NoxState :=
  scheduleWork (entries.foldl ioEntry s)

/-- A delivered `MutationRecord`: a `childList` record carries each added node
with its descendants (`node.querySelectorAll('*')`), an attribute record its
target. -/
inductive MutationRec : Type
  | childList (added : List (Elem × List Elem))
  | attrChange (target : Elem)

/-- One record of `NoxScheduler.onMutate`: insertions enqueue the node and
every descendant; attribute changes invalidate the cache entry and
re-enqueue. -/
def applyMutation (s : NoxState) (m : MutationRec) : NoxState :=
  match m with
  | MutationRec.childList added =>
    added.foldl (fun s nd => nd.2.foldl enqueue (enqueue s nd.1)) s
  | MutationRec.attrChange t =>
    enqueue { s with cache := fun e => if e = t then none else s.cache e } t

/-- `NoxScheduler.onMutate`. -/
def onMutate (muts : List MutationRec) (s : NoxState) : NoxState :=
  muts.foldl applyMutation s

/-- The `ResizeObserver` callback: an entry carries the target and its direct
child count. -/
def roCallback (entries : List (Elem × Nat)) (s : NoxState) : NoxState :=
  entries.foldl
    (fun s e => if (e.2 : ℚ) ≥ s.config.observeResizeMinChildren then enqueue s e.1 else s)
    s

/-- `NoxScheduler.patchShadow`: inject the base style (no scheduler state),
register a fresh scoped `MutationObserver` in the registry, seed the reduced
selector set (`seedEls` are the elements the shadow selectors matched). -/
def patchShadow (sid : ShadowId) (seedEls : List Elem) (s : NoxState) : NoxState :=
  seedEls.foldl enqueue { s with shadowObservers := jsAdd sid s.shadowObservers }

/-- The patched `Element.prototype.attachShadow`: when the hook is installed
and the new root is open-mode, `patchShadow` runs; the original result is
always returned unchanged. -/
def attachShadow (sid : ShadowId) (seedEls : List Elem) (openMode : Bool)
    (s : NoxState) : NoxState :=
  if s.attachShadowHooked ∧ openMode then patchShadow sid seedEls s else s

/-- `NoxScheduler.destroy`: disconnect every observer, clear the shadow
registry, cancel a pending frame/idle callback via the stored handles. The
queues, the cache, the id fields and the `attachShadow` hook are untouched. -/
def destroy (s : NoxState) : NoxState :=
  { s with ioObserved := [],
           moConnected := false,
           roObserved := [],
           shadowObservers := [],
           framePending := if s.frameId.isSome then false else s.framePending,
           idlePending := if s.idleId.isSome then false else s.idlePending }

/-- `NoxScheduler.seed`: enqueue the elements matched by the fixed selector
list (supplied by the environment as `seedEls`). -/
def seed (seedEls : List Elem) (s : NoxState) : NoxState :=
  seedEls.foldl enqueue s

/-- READ phase: walk the visible queue, break once the elapsed time exceeds
`readBudgetMs`, classify, accumulate the `(element, classification)` pair,
delete the element from the visible queue, count the read. -/
def readPhase (env : DomEnv) (o : TimeOracle) :
    List Elem → Nat → NoxState → NoxState × List (Elem × Classification)
  | [], _, s => (s, [])
  | el :: rest, k, s =>
    if o.readElapsed k > s.config.readBudgetMs then (s, [])
    else
      let r := classify env el s
      let s2 := { r.2 with qVisible := jsDelete el r.2.qVisible,
                           metrics := { r.2.metrics with reads := r.2.metrics.reads + 1 } }
      let rec2 := readPhase env o rest (k + 1) s2
      (rec2.1, (el, r.1) :: rec2.2)

/-- WRITE phase: apply the accumulated pairs in order, break once the elapsed
time exceeds `writeBudgetMs`; the applied prefix is returned (`applyStable`
touches only the DOM), the rest is dropped. -/
def writePhase (o : TimeOracle) :
    List (Elem × Classification) → Nat → NoxState → NoxState × List (Elem × Classification)
  | [], _, s => (s, [])
  | p :: rest, k, s =>
    if o.writeElapsed k > s.config.writeBudgetMs then (s, [])
    else
      let s1 := { s with metrics := { s.metrics with writes := s.metrics.writes + 1 } }
      let rec2 := writePhase o rest (k + 1) s1
      (rec2.1, p :: rec2.2)

/-- The outcome of one `runCycle` call: the final state, the pairs produced by
the READ phase in order, and the pairs actually handed to `applyStable` in the
WRITE phase in order. -/
structure CycleResult : Type where
  state : NoxState
  reads : List (Elem × Classification)
  writes : List (Elem × Classification)

/-- The READ-WRITE-metrics-reschedule tail of `runCycle`, applied to the
state after the breaker / empty-queue checks and optional seeding: READ
phase, WRITE phase, metric update, then either schedule the next frame or
reset the counter and schedule idle work. -/
def runCycleMain (env : DomEnv) (o : TimeOracle) (sA : NoxState) : CycleResult :=
  let rp := readPhase env o sA.qVisible 0 sA
  let wp := writePhase o rp.2 0 rp.1
  let sB := wp.1
  let sC := { sB with metrics := { sB.metrics with
    avgReadNs := jsDivOr0 o.readDur sB.metrics.reads,
    avgWriteNs := jsDivOr0 o.writeDur sB.metrics.writes,
    queuedVisible := sB.qVisible.length,
    queuedHidden := sB.qHidden.length } }
  if sC.qVisible ≠ [] then
    ⟨{ sC with frameId := some (sC.nextId + 1), framePending := true,
               nextId := sC.nextId + 1 }, rp.2, wp.2⟩
  else
    ⟨scheduleIdleWork { sC with consecutiveFrames := 0 }, rp.2, wp.2⟩

/-- `NoxScheduler.runCycle(seed)`: post-increment circuit breaker, empty-queue
early return (resetting the counter), optional seeding, then the READ/WRITE
tail `runCycleMain`. -/
def runCycle (env : DomEnv) (o : TimeOracle) (seedEls : List Elem) (seedFlag : Bool)
    (s0 : NoxState) : CycleResult :=
  let old := s0.consecutiveFrames
  let s := { s0 with consecutiveFrames := old + 1 }
  if old > 60 then ⟨destroy s, [], []⟩
  else if s.qVisible = [] ∧ seedFlag = false then
    ⟨{ s with consecutiveFrames := 0 }, [], []⟩
  else
    runCycleMain env o (if seedFlag then seed seedEls s else s)

/-- A sequence of external `runCycle(false)` invocations, one per oracle. -/
def runSeq (env : DomEnv) (os : List TimeOracle) (s : NoxState) : NoxState :=
  os.foldl (fun t o => (runCycle env o [] false t).state) s

/-- The state right after the constructor on a page without pre-existing
shadow roots: empty queues and cache, document `MutationObserver` observing,
`attachShadow` hooked. -/
def initState (cfg : NoxConfig) : NoxState where
  config := cfg
  qVisible := []
  qHidden := []
  cache := fun _ => none
  ioObserved := []
  roObserved := []
  moConnected := true
  shadowObservers := []
  frameId := none
  framePending := false
  idleId := none
  idlePending := false
  backpressure := false
  microtaskScheduled := false
  consecutiveFrames := 0
  attachShadowHooked := true
  nextId := 0
  metrics := ⟨0, 0, 0, JSNum.num 0, JSNum.num 0, 0, 0⟩

/-- One observable step of the scheduler: an admission call, a callback
delivered by the platform (guarded by the corresponding subscription /
pending flag), or an external API call. -/
inductive Step : NoxState → NoxState → Prop
  | enqueueStep (el : Elem) (s : NoxState) : Step s (enqueue s el)
  | microtaskStep (s : NoxState) (h : s.microtaskScheduled = true) :
      Step s (scheduleWorkMicrotask s)
  | ioStep (entries : List (Elem × Bool)) (s : NoxState)
      (h : ∀ e ∈ entries, e.1 ∈ s.ioObserved) : Step s (ioCallback entries s)
  | frameStep (env : DomEnv) (o : TimeOracle) (s : NoxState) (h : s.framePending = true) :
      Step s (runCycle env o [] false { s with framePending := false }).state
  | runCycleStep (env : DomEnv) (o : TimeOracle) (seedEls : List Elem) (seedFlag : Bool)
      (s : NoxState) : Step s (runCycle env o seedEls seedFlag s).state
  | idleStep (s : NoxState) (h : s.idlePending = true) : Step s (idleFire s)
  | mutationStep (muts : List MutationRec) (s : NoxState) (h : s.moConnected = true) :
      Step s (onMutate muts s)
  | shadowMutationStep (sid : ShadowId) (muts : List MutationRec) (s : NoxState)
      (h : sid ∈ s.shadowObservers) : Step s (onMutate muts s)
  | resizeStep (entries : List (Elem × Nat)) (s : NoxState)
      (h : ∀ e ∈ entries, e.1 ∈ s.roObserved) : Step s (roCallback entries s)
  | attachShadowStep (sid : ShadowId) (seedEls : List Elem) (openMode : Bool) (s : NoxState) :
      Step s (attachShadow sid seedEls openMode s)
  | destroyStep (s : NoxState) : Step s (destroy s)

/-- States reachable from a fresh scheduler instance. -/
def Reachable (cfg : NoxConfig) (s : NoxState) : Prop :=
  Relation.ReflTransGen Step (initState cfg) s

/-- No element sits in both queues. -/
def QueuesDisjoint (s : NoxState) : Prop :=
  ∀ x : Elem, x ∈ s.qVisible → x ∉ s.qHidden

/-- Pair-level disjointness used for the idle promotion fold. -/
def PairDisjoint (p : List Elem × List Elem) : Prop :=
  ∀ x : Elem, x ∈ p.1 → x ∉ p.2

/- ======================================================================
   Concrete environments, oracles and states used to instantiate the
   theorems below on executable inputs
   ====================================================================== -/

/-- A clock on which the very first budget check already fails: every
`performance.now()` reading is 5 ms past the phase start, over the 4 ms
default budgets. -/
def oStall : TimeOracle := ⟨fun _ => 5, fun _ => 5, 0, 0⟩

/-- A clock that never exhausts a budget. -/
def oGo : TimeOracle := ⟨fun _ => 0, fun _ => 0, 0, 0⟩

/-- A clock that reads everything but writes nothing: the write budget is
already exceeded at the first write check. -/
def oReadOnly : TimeOracle := ⟨fun _ => 0, fun _ => 5, 0, 0⟩

/-- A document whose elements are not `HTMLElement`s (e.g. SVG content). -/
def envNonHTML : DomEnv := ⟨fun _ => false, fun _ => ⟨"", "none", "1", "none", "normal"⟩, fun x => x⟩

/-- A document of `HTMLElement`s whose computed background color is the fully
transparent `rgba(0, 0, 0, 0)` (the default computed background). -/
def envTransparent : DomEnv :=
  ⟨fun _ => true, fun _ => ⟨"rgba(0, 0, 0, 0)", "none", "1", "none", "normal"⟩, fun x => x⟩

/-- A document of `HTMLElement`s with a near-black `rgb(5, 5, 5)` background
(every channel is in the linear branch of the gamma expansion, so `pow24`
is never consulted). -/
def envDark : DomEnv :=
  ⟨fun _ => true, fun _ => ⟨"rgb(5, 5, 5)", "none", "1", "none", "normal"⟩, fun x => x⟩

/-- A document of `HTMLElement`s with a `#fff` background. -/
def envWhite : DomEnv :=
  ⟨fun _ => true, fun _ => ⟨"#fff", "none", "1", "none", "normal"⟩, fun x => x⟩

/-- A document of `HTMLElement`s whose computed background color is the named
color `red`, which `parseColor` cannot parse. -/
def envNamed : DomEnv :=
  ⟨fun _ => true, fun _ => ⟨"red", "none", "1", "none", "normal"⟩, fun x => x⟩

/-- Witness trace for queue disjointness: one element enqueued... -/
def c5s1 : NoxState := enqueue (initState DEFAULTS) 5

/-- ...and then reported visible by the `IntersectionObserver`. -/
def c5s2 : NoxState := ioCallback [(5, true)] c5s1

/-- Metrics of `c2Base`: one element queued visible. -/
def c2Metrics : NoxMetrics := ⟨0, 0, 0, JSNum.num 0, JSNum.num 0, 1, 0⟩

/-- A scheduler holding one visible element with the frame chain armed and
the consecutive-frame counter at zero. -/
def c2Base : NoxState :=
  { initState DEFAULTS with
      qVisible := [0]
      framePending := true
      frameId := some 1
      nextId := 1
      metrics := c2Metrics }

/-- One `runCycle(false)` invocation under the stalled clock: the queue is
never drained, so the cycle only bumps the counter and re-arms the frame. -/
def c2Step (t : NoxState) : NoxState := (runCycle envNonHTML oStall [] false t).state

/-- Closed form of `n ≤ 61` iterations of `c2Step` from `c2Base`. -/
def c2State (n : Nat) : NoxState :=
  { c2Base with
      consecutiveFrames := n
      frameId := some (n + 1)
      nextId := n + 1 }

/-- C8 trace, step 1: enqueue element 0 into a fresh scheduler. -/
def c8s1 : NoxState := enqueue (initState DEFAULTS) 0

/-- C8 trace, step 2: the `IntersectionObserver` reports element 0 visible. -/
def c8s2 : NoxState := ioCallback [(0, true)] c8s1

/-- C8 trace, step 3: the coalesced microtask fires and schedules a frame. -/
def c8s3 : NoxState := scheduleWorkMicrotask c8s2

/-- C8 trace, step 4: the frame callback fires (so it is no longer pending)
and the cycle drains the queue; `frameId` keeps the stale handle. -/
def c8s4 : NoxState := (runCycle envNonHTML oGo [] false { c8s3 with framePending := false }).state

/-- C8 trace, step 5: a new element is enqueued. -/
def c8s5 : NoxState := enqueue c8s4 1

/-- C8 trace, step 6: the `IntersectionObserver` reports element 1 visible;
a microtask is now pending, the visible queue is non-empty, and no frame
callback is genuinely pending. -/
def c8s6 : NoxState := ioCallback [(1, true)] c8s5

/-- Backpressure witness state: three elements queued against `maxQueue = 2`. -/
def c4s : NoxState := { initState { DEFAULTS with maxQueue := 2 } with qVisible := [1, 2, 3] }

/-- Idle-promotion witness state: three hidden elements, an idle callback
pending. -/
def c7s : NoxState :=
  { initState DEFAULTS with
      qHidden := [1, 2, 3]
      idleId := some 1
      idlePending := true }

/-- Cycle-ordering witness state: two visible elements. -/
def c6s : NoxState := { initState DEFAULTS with qVisible := [7, 8] }


/- ======================================================================
   Basic lemmas about the embedded `Set` operations
   ====================================================================== -/

theorem mem_jsAdd {α : Type} [DecidableEq α] {x y : α} {l : List α} :
    x ∈ jsAdd y l ↔ x ∈ l ∨ x = y := by
  unfold jsAdd
  split
  · constructor
    · exact fun h => Or.inl h
    · rintro (h | rfl) <;> [exact h; assumption]
  · simp [or_comm]

theorem mem_jsDelete {α : Type} [DecidableEq α] {x y : α} {l : List α} :
    x ∈ jsDelete y l ↔ x ∈ l ∧ x ≠ y := by
  unfold jsDelete
  simp

theorem not_mem_jsDelete_self {α : Type} [DecidableEq α] (y : α) (l : List α) :
    y ∉ jsDelete y l := by
  intro h
  exact (mem_jsDelete.mp h).2 rfl

/- ======================================================================
   Field-preservation lemmas
   ====================================================================== -/

/-- `classifyMiss` touches only the metrics and the cache. -/
theorem classifyMiss_state_eq (env : DomEnv) (cs : ComputedStyle) (key : String)
    (el : Elem) (s : NoxState) :
    ∃ m ch, (classifyMiss env cs key el s).2 = { s with metrics := m, cache := ch } := by
  unfold classifyMiss setCache
  repeat' split
  all_goals exact ⟨_, _, rfl⟩

/-- `classify` touches only the metrics and the cache. -/
theorem classify_state_eq (env : DomEnv) (el : Elem) (s : NoxState) :
    ∃ m ch, (classify env el s).2 = { s with metrics := m, cache := ch } := by
  unfold classify
  split
  · exact ⟨s.metrics, s.cache, rfl⟩
  · dsimp only
    split
    · split
      · exact ⟨_, _, rfl⟩
      · exact classifyMiss_state_eq _ _ _ _ _
    · exact classifyMiss_state_eq _ _ _ _ _

theorem classify_qVisible (env : DomEnv) (el : Elem) (s : NoxState) :
    ((classify env el s).2).qVisible = s.qVisible := by
  obtain ⟨m, ch, h⟩ := classify_state_eq env el s
  rw [h]

theorem classify_qHidden (env : DomEnv) (el : Elem) (s : NoxState) :
    ((classify env el s).2).qHidden = s.qHidden := by
  obtain ⟨m, ch, h⟩ := classify_state_eq env el s
  rw [h]

theorem classify_consecutiveFrames (env : DomEnv) (el : Elem) (s : NoxState) :
    ((classify env el s).2).consecutiveFrames = s.consecutiveFrames := by
  obtain ⟨m, ch, h⟩ := classify_state_eq env el s
  rw [h]

theorem classify_config (env : DomEnv) (el : Elem) (s : NoxState) :
    ((classify env el s).2).config = s.config := by
  obtain ⟨m, ch, h⟩ := classify_state_eq env el s
  rw [h]

theorem scheduleWork_queues (s : NoxState) :
    (scheduleWork s).qVisible = s.qVisible ∧ (scheduleWork s).qHidden = s.qHidden := by
  unfold scheduleWork
  split <;> exact ⟨rfl, rfl⟩

theorem enqueue_queues (s : NoxState) (el : Elem) :
    (enqueue s el).qVisible = s.qVisible ∧ (enqueue s el).qHidden = s.qHidden := by
  unfold enqueue
  split
  · exact ⟨rfl, rfl⟩
  · exact scheduleWork_queues _

theorem foldl_enqueue_queues (l : List Elem) (s : NoxState) :
    ((l.foldl enqueue s).qVisible = s.qVisible ∧ (l.foldl enqueue s).qHidden = s.qHidden) := by
  induction l generalizing s with
  | nil => exact ⟨rfl, rfl⟩
  | cons x t ih =>
    rcases ih (enqueue s x) with ⟨h1, h2⟩
    rcases enqueue_queues s x with ⟨g1, g2⟩
    exact ⟨by rw [List.foldl_cons, h1, g1], by rw [List.foldl_cons, h2, g2]⟩

theorem seed_queues (seedEls : List Elem) (s : NoxState) :
    (seed seedEls s).qVisible = s.qVisible ∧ (seed seedEls s).qHidden = s.qHidden :=
  foldl_enqueue_queues seedEls s

theorem foldl_added_queues (added : List (Elem × List Elem)) (s : NoxState) :
    ((added.foldl (fun s nd => nd.2.foldl enqueue (enqueue s nd.1)) s).qVisible = s.qVisible ∧
     (added.foldl (fun s nd => nd.2.foldl enqueue (enqueue s nd.1)) s).qHidden = s.qHidden) := by
  induction added generalizing s with
  | nil => exact ⟨rfl, rfl⟩
  | cons nd t ih =>
    rcases ih (nd.2.foldl enqueue (enqueue s nd.1)) with ⟨h1, h2⟩
    rcases foldl_enqueue_queues nd.2 (enqueue s nd.1) with ⟨g1, g2⟩
    rcases enqueue_queues s nd.1 with ⟨f1, f2⟩
    exact ⟨by rw [List.foldl_cons, h1, g1, f1], by rw [List.foldl_cons, h2, g2, f2]⟩

theorem applyMutation_queues (s : NoxState) (m : MutationRec) :
    (applyMutation s m).qVisible = s.qVisible ∧ (applyMutation s m).qHidden = s.qHidden := by
  cases m with
  | childList added =>
    simp only [applyMutation]
    exact foldl_added_queues added s
  | attrChange t =>
    simp only [applyMutation]
    exact enqueue_queues _ t

theorem onMutate_queues (muts : List MutationRec) (s : NoxState) :
    (onMutate muts s).qVisible = s.qVisible ∧ (onMutate muts s).qHidden = s.qHidden := by
  unfold onMutate
  induction muts generalizing s with
  | nil => exact ⟨rfl, rfl⟩
  | cons m t ih =>
    rcases ih (applyMutation s m) with ⟨h1, h2⟩
    rcases applyMutation_queues s m with ⟨g1, g2⟩
    exact ⟨by rw [List.foldl_cons, h1, g1], by rw [List.foldl_cons, h2, g2]⟩

theorem roCallback_queues (entries : List (Elem × Nat)) (s : NoxState) :
    (roCallback entries s).qVisible = s.qVisible ∧ (roCallback entries s).qHidden = s.qHidden := by
  unfold roCallback
  induction entries generalizing s with
  | nil => exact ⟨rfl, rfl⟩
  | cons e t ih =>
    rw [List.foldl_cons]
    rcases ih (if (e.2 : ℚ) ≥ s.config.observeResizeMinChildren then enqueue s e.1 else s) with ⟨h1, h2⟩
    rw [h1, h2]
    split <;> [exact enqueue_queues s e.1; exact ⟨rfl, rfl⟩]

theorem patchShadow_queues (sid : ShadowId) (seedEls : List Elem) (s : NoxState) :
    (patchShadow sid seedEls s).qVisible = s.qVisible ∧
    (patchShadow sid seedEls s).qHidden = s.qHidden := by
  unfold patchShadow
  exact foldl_enqueue_queues seedEls _

theorem attachShadow_queues (sid : ShadowId) (seedEls : List Elem) (m : Bool) (s : NoxState) :
    (attachShadow sid seedEls m s).qVisible = s.qVisible ∧
    (attachShadow sid seedEls m s).qHidden = s.qHidden := by
  unfold attachShadow
  split <;> [exact patchShadow_queues sid seedEls s; exact ⟨rfl, rfl⟩]

theorem backpressureCheck_queues (s : NoxState) :
    (backpressureCheck s).qVisible = s.qVisible ∧
    (backpressureCheck s).qHidden = s.qHidden := by
  simp only [backpressureCheck]
  repeat' split
  all_goals exact ⟨rfl, rfl⟩

theorem scheduleFrameIfNeeded_queues (s : NoxState) :
    (scheduleFrameIfNeeded s).qVisible = s.qVisible ∧
    (scheduleFrameIfNeeded s).qHidden = s.qHidden := by
  unfold scheduleFrameIfNeeded
  split <;> exact ⟨rfl, rfl⟩

theorem scheduleFrameIfNeeded_bp (s : NoxState) :
    (scheduleFrameIfNeeded s).backpressure = s.backpressure ∧
    (scheduleFrameIfNeeded s).moConnected = s.moConnected := by
  unfold scheduleFrameIfNeeded
  split <;> exact ⟨rfl, rfl⟩

theorem scheduleWorkMicrotask_queues (s : NoxState) :
    (scheduleWorkMicrotask s).qVisible = s.qVisible ∧
    (scheduleWorkMicrotask s).qHidden = s.qHidden := by
  unfold scheduleWorkMicrotask
  rcases scheduleFrameIfNeeded_queues (backpressureCheck { s with microtaskScheduled := false })
    with ⟨h1, h2⟩
  rcases backpressureCheck_queues { s with microtaskScheduled := false } with ⟨g1, g2⟩
  exact ⟨by rw [h1, g1], by rw [h2, g2]⟩

theorem scheduleIdleWork_queues (s : NoxState) :
    (scheduleIdleWork s).qVisible = s.qVisible ∧ (scheduleIdleWork s).qHidden = s.qHidden := by
  unfold scheduleIdleWork
  split <;> exact ⟨rfl, rfl⟩

theorem scheduleIdleWork_consecutiveFrames (s : NoxState) :
    (scheduleIdleWork s).consecutiveFrames = s.consecutiveFrames := by
  unfold scheduleIdleWork
  split <;> rfl

theorem destroy_queues (s : NoxState) :
    (destroy s).qVisible = s.qVisible ∧ (destroy s).qHidden = s.qHidden :=
  ⟨rfl, rfl⟩

/- ======================================================================
   READ / WRITE phase lemmas
   ====================================================================== -/

theorem readPhase_qHidden (env : DomEnv) (o : TimeOracle) :
    ∀ (l : List Elem) (k : Nat) (s : NoxState),
    (readPhase env o l k s).1.qHidden = s.qHidden := by
  intro l
  induction l with
  | nil => intro k s; rfl
  | cons el rest ih =>
    intro k s
    simp only [readPhase]
    split
    · rfl
    · dsimp only
      rw [ih]
      dsimp only
      rw [classify_qHidden]

theorem readPhase_consecutiveFrames (env : DomEnv) (o : TimeOracle) :
    ∀ (l : List Elem) (k : Nat) (s : NoxState),
    (readPhase env o l k s).1.consecutiveFrames = s.consecutiveFrames := by
  intro l
  induction l with
  | nil => intro k s; rfl
  | cons el rest ih =>
    intro k s
    simp only [readPhase]
    split
    · rfl
    · dsimp only
      rw [ih]
      dsimp only
      rw [classify_consecutiveFrames]

theorem readPhase_qVisible_sub (env : DomEnv) (o : TimeOracle) :
    ∀ (l : List Elem) (k : Nat) (s : NoxState) (x : Elem),
    x ∈ (readPhase env o l k s).1.qVisible → x ∈ s.qVisible := by
  intro l
  induction l with
  | nil => intro k s x h; exact h
  | cons el rest ih =>
    intro k s x
    simp only [readPhase]
    split
    · exact fun h => h
    · dsimp only
      intro h
      have h2 := ih _ _ _ h
      dsimp only at h2
      rw [classify_qVisible] at h2
      exact (mem_jsDelete.mp h2).1

theorem readPhase_reads_not_mem (env : DomEnv) (o : TimeOracle) :
    ∀ (l : List Elem) (k : Nat) (s : NoxState),
    ∀ p ∈ (readPhase env o l k s).2, p.1 ∉ (readPhase env o l k s).1.qVisible := by
  intro l
  induction l with
  | nil => intro k s p h; cases h
  | cons el rest ih =>
    intro k s p
    simp only [readPhase]
    split
    · intro h; cases h
    · dsimp only
      intro hp hmem
      rcases List.mem_cons.mp hp with heq | htail
      · subst heq
        have h2 := readPhase_qVisible_sub env o rest _ _ _ hmem
        dsimp only at h2
        rw [classify_qVisible] at h2
        exact not_mem_jsDelete_self el _ h2
      · exact ih _ _ p htail hmem

theorem writePhase_state_eq (o : TimeOracle) :
    ∀ (ps : List (Elem × Classification)) (k : Nat) (s : NoxState),
    ∃ m, (writePhase o ps k s).1 = { s with metrics := m } := by
  intro ps
  induction ps with
  | nil => intro k s; exact ⟨s.metrics, rfl⟩
  | cons p rest ih =>
    intro k s
    simp only [writePhase]
    split
    · exact ⟨s.metrics, rfl⟩
    · dsimp only
      obtain ⟨m, hm⟩ := ih (k + 1) _
      exact ⟨m, by rw [hm]⟩

theorem writePhase_applied_take (o : TimeOracle) :
    ∀ (ps : List (Elem × Classification)) (k : Nat) (s : NoxState),
    ∃ n, (writePhase o ps k s).2 = ps.take n := by
  intro ps
  induction ps with
  | nil => intro k s; exact ⟨0, rfl⟩
  | cons p rest ih =>
    intro k s
    simp only [writePhase]
    split
    · exact ⟨0, rfl⟩
    · dsimp only
      obtain ⟨n, hn⟩ := ih (k + 1) _
      exact ⟨n + 1, by rw [List.take_succ_cons, hn]⟩

/- ======================================================================
   runCycle structural lemmas
   ====================================================================== -/

theorem afterPhases_qHidden (env : DomEnv) (o : TimeOracle) (sA : NoxState) :
    (writePhase o (readPhase env o sA.qVisible 0 sA).2 0
      (readPhase env o sA.qVisible 0 sA).1).1.qHidden = sA.qHidden := by
  obtain ⟨m, hm⟩ := writePhase_state_eq o (readPhase env o sA.qVisible 0 sA).2 0
    (readPhase env o sA.qVisible 0 sA).1
  rw [hm]
  exact readPhase_qHidden env o sA.qVisible 0 sA

theorem afterPhases_qVisible_sub (env : DomEnv) (o : TimeOracle) (sA : NoxState) (x : Elem) :
    x ∈ (writePhase o (readPhase env o sA.qVisible 0 sA).2 0
      (readPhase env o sA.qVisible 0 sA).1).1.qVisible → x ∈ sA.qVisible := by
  obtain ⟨m, hm⟩ := writePhase_state_eq o (readPhase env o sA.qVisible 0 sA).2 0
    (readPhase env o sA.qVisible 0 sA).1
  rw [hm]
  exact fun h => readPhase_qVisible_sub env o sA.qVisible 0 sA x h

theorem afterPhases_consecutiveFrames (env : DomEnv) (o : TimeOracle) (sA : NoxState) :
    (writePhase o (readPhase env o sA.qVisible 0 sA).2 0
      (readPhase env o sA.qVisible 0 sA).1).1.consecutiveFrames = sA.consecutiveFrames := by
  obtain ⟨m, hm⟩ := writePhase_state_eq o (readPhase env o sA.qVisible 0 sA).2 0
    (readPhase env o sA.qVisible 0 sA).1
  rw [hm]
  exact readPhase_consecutiveFrames env o sA.qVisible 0 sA

theorem seedState_qHidden (se : List Elem) (b : Bool) (s' : NoxState) :
    (if b then seed se s' else s').qHidden = s'.qHidden := by
  split
  · exact (seed_queues se s').2
  · rfl

theorem seedState_qVisible (se : List Elem) (b : Bool) (s' : NoxState) :
    (if b then seed se s' else s').qVisible = s'.qVisible := by
  split
  · exact (seed_queues se s').1
  · rfl

theorem runCycleMain_qHidden (env : DomEnv) (o : TimeOracle) (sA : NoxState) :
    (runCycleMain env o sA).state.qHidden = sA.qHidden := by
  simp only [runCycleMain]
  split
  · exact afterPhases_qHidden env o sA
  · exact Eq.trans ((scheduleIdleWork_queues _).2) (afterPhases_qHidden env o sA)

theorem runCycleMain_qVisible_sub (env : DomEnv) (o : TimeOracle) (sA : NoxState) (x : Elem) :
    x ∈ (runCycleMain env o sA).state.qVisible → x ∈ sA.qVisible := by
  simp only [runCycleMain]
  split
  · exact fun h => afterPhases_qVisible_sub env o sA x h
  · intro h
    rw [(scheduleIdleWork_queues _).1] at h
    exact afterPhases_qVisible_sub env o sA x h

theorem runCycle_qHidden (env : DomEnv) (o : TimeOracle) (se : List Elem) (b : Bool)
    (s : NoxState) : (runCycle env o se b s).state.qHidden = s.qHidden := by
  simp only [runCycle]
  split
  · rfl
  split
  · rfl
  exact Eq.trans (runCycleMain_qHidden env o _) (seedState_qHidden se b _)

theorem runCycle_qVisible_sub (env : DomEnv) (o : TimeOracle) (se : List Elem) (b : Bool)
    (s : NoxState) (x : Elem) :
    x ∈ (runCycle env o se b s).state.qVisible → x ∈ s.qVisible := by
  simp only [runCycle]
  split
  · exact fun h => h
  split
  · exact fun h => h
  intro h
  have h2 := runCycleMain_qVisible_sub env o _ x h
  rw [seedState_qVisible se b _] at h2
  exact h2

/- ======================================================================
   Queue disjointness
   ====================================================================== -/

theorem queuesDisjoint_of_eq {s s' : NoxState} (hv : s'.qVisible = s.qVisible)
    (hh : s'.qHidden = s.qHidden) (h : QueuesDisjoint s) : QueuesDisjoint s' := by
  intro x hx
  rw [hv] at hx
  rw [hh]
  exact h x hx

theorem ioEntry_disjoint (s : NoxState) (e : Elem × Bool) (h : QueuesDisjoint s) :
    QueuesDisjoint (ioEntry s e) := by
  unfold ioEntry
  split
  · intro x hx hmem
    rcases mem_jsAdd.mp hx with hv | rfl
    · exact h x hv (mem_jsDelete.mp hmem).1
    · exact not_mem_jsDelete_self _ _ hmem
  · intro x hx hmem
    rcases mem_jsDelete.mp hx with ⟨hv, hne⟩
    rcases mem_jsAdd.mp hmem with hh | rfl
    · exact h x hv hh
    · exact hne rfl

theorem foldl_ioEntry_disjoint (entries : List (Elem × Bool)) (s : NoxState)
    (h : QueuesDisjoint s) : QueuesDisjoint (entries.foldl ioEntry s) := by
  induction entries generalizing s with
  | nil => exact h
  | cons e t ih => exact ih (ioEntry s e) (ioEntry_disjoint s e h)

theorem ioCallback_disjoint (entries : List (Elem × Bool)) (s : NoxState)
    (h : QueuesDisjoint s) : QueuesDisjoint (ioCallback entries s) := by
  unfold ioCallback
  exact queuesDisjoint_of_eq (scheduleWork_queues _).1 (scheduleWork_queues _).2
    (foldl_ioEntry_disjoint entries s h)

theorem promoteOne_disjoint (p : List Elem × List Elem) (y : Elem) (h : PairDisjoint p) :
    PairDisjoint (promoteOne p y) := by
  unfold promoteOne
  intro x hx hmem
  rcases mem_jsAdd.mp hx with hv | rfl
  · exact h x hv (mem_jsDelete.mp hmem).1
  · exact not_mem_jsDelete_self _ _ hmem

theorem foldl_promoteOne_disjoint (l : List Elem) (p : List Elem × List Elem)
    (h : PairDisjoint p) : PairDisjoint (l.foldl promoteOne p) := by
  induction l generalizing p with
  | nil => exact h
  | cons y t ih => exact ih (promoteOne p y) (promoteOne_disjoint p y h)

theorem idleFire_disjoint (s : NoxState) (h : QueuesDisjoint s) :
    QueuesDisjoint (idleFire s) := by
  simp only [idleFire]
  have hd : PairDisjoint ((s.qHidden.take 100).foldl promoteOne (s.qVisible, s.qHidden)) :=
    foldl_promoteOne_disjoint _ _ (fun x hx => h x hx)
  split
  · exact queuesDisjoint_of_eq (scheduleWork_queues _).1 (scheduleWork_queues _).2
      (fun x hx => hd x hx)
  split
  · exact queuesDisjoint_of_eq (scheduleIdleWork_queues _).1 (scheduleIdleWork_queues _).2
      (fun x hx => hd x hx)
  · exact fun x hx => hd x hx

theorem runCycle_disjoint (env : DomEnv) (o : TimeOracle) (se : List Elem) (b : Bool)
    (s : NoxState) (h : QueuesDisjoint s) : QueuesDisjoint (runCycle env o se b s).state := by
  intro x hx
  rw [runCycle_qHidden]
  exact h x (runCycle_qVisible_sub env o se b s x hx)

/-- Every scheduler step preserves disjointness of the two queues. -/
theorem step_preserves_disjoint {s s' : NoxState} (hs : Step s s')
    (h : QueuesDisjoint s) : QueuesDisjoint s' := by
  cases hs with
  | enqueueStep el s => exact queuesDisjoint_of_eq (enqueue_queues s el).1 (enqueue_queues s el).2 h
  | microtaskStep s hg =>
    exact queuesDisjoint_of_eq (scheduleWorkMicrotask_queues s).1 (scheduleWorkMicrotask_queues s).2 h
  | ioStep entries s hg => exact ioCallback_disjoint entries s h
  | frameStep env o s hg => exact runCycle_disjoint env o [] false _ (fun x hx => h x hx)
  | runCycleStep env o seedEls seedFlag s => exact runCycle_disjoint env o seedEls seedFlag s h
  | idleStep s hg => exact idleFire_disjoint s h
  | mutationStep muts s hg =>
    exact queuesDisjoint_of_eq (onMutate_queues muts s).1 (onMutate_queues muts s).2 h
  | shadowMutationStep sid muts s hg =>
    exact queuesDisjoint_of_eq (onMutate_queues muts s).1 (onMutate_queues muts s).2 h
  | resizeStep entries s hg =>
    exact queuesDisjoint_of_eq (roCallback_queues entries s).1 (roCallback_queues entries s).2 h
  | attachShadowStep sid seedEls openMode s =>
    exact queuesDisjoint_of_eq (attachShadow_queues sid seedEls openMode s).1
      (attachShadow_queues sid seedEls openMode s).2 h
  | destroyStep s => exact queuesDisjoint_of_eq (destroy_queues s).1 (destroy_queues s).2 h

/- ======================================================================
   Claim C5 — queue disjointness over all reachable states
   ====================================================================== -/

/-- Claim C5: for every reachable scheduler state and every operation
(visibility transition, enqueue, mutation, resize, idle promotion,
runCycle, ...), the visible queue and the hidden queue remain disjoint: no
node is ever simultaneously a member of both. -/
theorem claim_C5_queue_disjointness (cfg : NoxConfig) (s : NoxState) (h : Reachable cfg s) :
    ∀ x : Elem, x ∈ s.qVisible → x ∉ s.qHidden := by
  unfold Reachable at h
  induction h with
  | refl => intro x hx; cases hx
  | tail _ hstep ih => exact step_preserves_disjoint hstep ih

/-- `c5s2` is reachable: enqueue element 5, then deliver its intersection
entry. -/
theorem c5s2_reachable : Reachable DEFAULTS c5s2 :=
  Relation.ReflTransGen.tail
    (Relation.ReflTransGen.tail Relation.ReflTransGen.refl
      (Step.enqueueStep 5 (initState DEFAULTS)))
    (Step.ioStep [(5, true)] c5s1 (by with_unfolding_all decide))

theorem claim_C5_witness : (5 : Elem) ∉ c5s2.qHidden :=
  claim_C5_queue_disjointness DEFAULTS c5s2 c5s2_reachable 5 (by with_unfolding_all decide)

/- ======================================================================
   Claim C7 — idle promotion
   ====================================================================== -/

theorem jsAdd_not_mem {α : Type} [DecidableEq α] {x : α} {l : List α} (h : x ∉ l) :
    jsAdd x l = l ++ [x] := by
  unfold jsAdd
  exact if_neg h

theorem jsDelete_not_mem {α : Type} [DecidableEq α] {x : α} {l : List α} (h : x ∉ l) :
    jsDelete x l = l := by
  unfold jsDelete
  refine List.filter_eq_self.mpr ?_
  intro a ha
  exact decide_eq_true (fun heq => h (heq ▸ ha))

theorem jsDelete_cons_self {α : Type} [DecidableEq α] {x : α} {l : List α} (h : x ∉ l) :
    jsDelete x (x :: l) = l := by
  unfold jsDelete
  rw [List.filter_cons, if_neg (by simp)]
  exact jsDelete_not_mem h

/-- Folding the promotion step over a duplicate-free prefix moves that prefix
from the hidden list to the end of the visible list. -/
theorem moveAux : ∀ (l rest v : List Elem), (l ++ rest).Nodup → (∀ x ∈ l, x ∉ v) →
    l.foldl promoteOne (v, l ++ rest) = (v ++ l, rest) := by
  intro l
  induction l with
  | nil =>
    intro rest v _ _
    simp
  | cons x t ih =>
    intro rest v hnd hv
    rw [List.cons_append, List.foldl_cons]
    have hxnot : x ∉ t ++ rest := (List.nodup_cons.mp hnd).1
    have hstep : promoteOne (v, x :: (t ++ rest)) x = (v ++ [x], t ++ rest) := by
      unfold promoteOne
      rw [jsAdd_not_mem (hv x (List.mem_cons_self x t)), jsDelete_cons_self hxnot]
    rw [hstep]
    have ht := ih rest (v ++ [x]) (List.nodup_cons.mp hnd).2 ?_
    · rw [ht, List.append_assoc, List.singleton_append]
    · intro y hy
      rw [List.mem_append]
      rintro (hyv | hyx)
      · exact hv y (List.mem_cons_of_mem x hy) hyv
      · rcases List.mem_singleton.mp hyx with rfl
        exact hxnot (List.mem_append.mpr (Or.inl hy))

theorem moveTake (k : Nat) (v h : List Elem) (hnd : h.Nodup)
    (hdisj : ∀ x ∈ h.take k, x ∉ v) :
    (h.take k).foldl promoteOne (v, h) = (v ++ h.take k, h.drop k) := by
  have hs := moveAux (h.take k) (h.drop k) v
    (by rw [List.take_append_drop]; exact hnd) hdisj
  rw [List.take_append_drop] at hs
  exact hs

/-- Claim C7: for every hidden-queue content, one firing of the idle callback
moves exactly `min(100, |hidden|)` nodes from the hidden queue to the visible
queue, preserving admission order, and the total node count across both
queues is conserved. -/
theorem claim_C7_idle_promotion (s : NoxState) (hnd : s.qHidden.Nodup)
    (hdisj : ∀ x ∈ s.qHidden, x ∉ s.qVisible) :
    (idleFire s).qVisible = s.qVisible ++ s.qHidden.take 100 ∧
    (idleFire s).qHidden = s.qHidden.drop 100 ∧
    (idleFire s).qVisible.length + (idleFire s).qHidden.length
      = s.qVisible.length + s.qHidden.length ∧
    (idleFire s).qVisible.length = s.qVisible.length + min 100 s.qHidden.length := by
  have hfold := moveTake 100 s.qVisible s.qHidden hnd
    (fun x hx => hdisj x (List.take_subset 100 s.qHidden hx))
  have hv : (idleFire s).qVisible = s.qVisible ++ s.qHidden.take 100 := by
    simp only [idleFire, hfold]
    split
    · exact (scheduleWork_queues _).1
    split
    · exact (scheduleIdleWork_queues _).1
    · rfl
  have hh : (idleFire s).qHidden = s.qHidden.drop 100 := by
    simp only [idleFire, hfold]
    split
    · exact (scheduleWork_queues _).2
    split
    · exact (scheduleIdleWork_queues _).2
    · rfl
  refine ⟨hv, hh, ?_, ?_⟩
  · rw [hv, hh]
    simp only [List.length_append, List.length_take, List.length_drop]
    omega
  · rw [hv]
    simp only [List.length_append, List.length_take]

theorem claim_C7_witness :
    (idleFire c7s).qVisible = c7s.qVisible ++ c7s.qHidden.take 100 ∧
    (idleFire c7s).qHidden = c7s.qHidden.drop 100 ∧
    (idleFire c7s).qVisible.length + (idleFire c7s).qHidden.length
      = c7s.qVisible.length + c7s.qHidden.length ∧
    (idleFire c7s).qVisible.length = c7s.qVisible.length + min 100 c7s.qHidden.length :=
  claim_C7_idle_promotion c7s (by with_unfolding_all decide) (by with_unfolding_all decide)

/- ======================================================================
   Claim C6 — READ before WRITE, ordered writes, lossy drops
   ====================================================================== -/

theorem runCycleMain_writes_take (env : DomEnv) (o : TimeOracle) (sA : NoxState) :
    ∃ n, (runCycleMain env o sA).writes = (runCycleMain env o sA).reads.take n := by
  simp only [runCycleMain]
  split
  · exact writePhase_applied_take o (readPhase env o sA.qVisible 0 sA).2 0
      (readPhase env o sA.qVisible 0 sA).1
  · exact writePhase_applied_take o (readPhase env o sA.qVisible 0 sA).2 0
      (readPhase env o sA.qVisible 0 sA).1

theorem runCycleMain_reads_not_mem (env : DomEnv) (o : TimeOracle) (sA : NoxState) :
    ∀ p ∈ (runCycleMain env o sA).reads, p.1 ∉ (runCycleMain env o sA).state.qVisible := by
  simp only [runCycleMain]
  split
  · intro p hp hmem
    obtain ⟨m, hm⟩ := writePhase_state_eq o (readPhase env o sA.qVisible 0 sA).2 0
      (readPhase env o sA.qVisible 0 sA).1
    have hmem2 : p.1 ∈ (writePhase o (readPhase env o sA.qVisible 0 sA).2 0
        (readPhase env o sA.qVisible 0 sA).1).1.qVisible := hmem
    rw [hm] at hmem2
    exact readPhase_reads_not_mem env o sA.qVisible 0 sA p hp hmem2
  · intro p hp hmem
    obtain ⟨m, hm⟩ := writePhase_state_eq o (readPhase env o sA.qVisible 0 sA).2 0
      (readPhase env o sA.qVisible 0 sA).1
    rw [(scheduleIdleWork_queues _).1] at hmem
    have hmem2 : p.1 ∈ (writePhase o (readPhase env o sA.qVisible 0 sA).2 0
        (readPhase env o sA.qVisible 0 sA).1).1.qVisible := hmem
    rw [hm] at hmem2
    exact readPhase_reads_not_mem env o sA.qVisible 0 sA p hp hmem2

/-- Claim C6: within one `runCycle`, every READ (pop from the visible queue
and classify) happens before any WRITE of that cycle — the writes actually
applied are a prefix of the read pairs, in read order; every node popped in
the READ phase is removed from the visible queue even when its write is
dropped by the write budget; and dropped pairs are not requeued anywhere —
the hidden queue is untouched by the cycle and read nodes do not reappear in
the visible queue. -/
theorem claim_C6_cycle_ordering (env : DomEnv) (o : TimeOracle) (se : List Elem) (b : Bool)
    (s : NoxState) :
    (∃ n, (runCycle env o se b s).writes = (runCycle env o se b s).reads.take n) ∧
    (∀ p ∈ (runCycle env o se b s).reads, p.1 ∉ (runCycle env o se b s).state.qVisible) ∧
    (runCycle env o se b s).state.qHidden = s.qHidden := by
  refine ⟨?_, ?_, runCycle_qHidden env o se b s⟩
  · simp only [runCycle]
    split
    · exact ⟨0, rfl⟩
    split
    · exact ⟨0, rfl⟩
    · exact runCycleMain_writes_take env o _
  · simp only [runCycle]
    split
    · intro p hp; cases hp
    split
    · intro p hp; cases hp
    · exact runCycleMain_reads_not_mem env o _

/- ======================================================================
   Claim C2 — circuit breaker
   ====================================================================== -/

theorem runCycleMain_cf_pos (env : DomEnv) (o : TimeOracle) (sA : NoxState)
    (h : (runCycleMain env o sA).state.qVisible ≠ []) :
    (runCycleMain env o sA).state.consecutiveFrames = sA.consecutiveFrames := by
  simp only [runCycleMain] at h ⊢
  split at h
  · next hc =>
      rw [if_pos hc]
      exact afterPhases_consecutiveFrames env o sA
  · next hc =>
      rw [(scheduleIdleWork_queues _).1] at h
      exact absurd (not_not.mp hc) h

theorem runCycleMain_cf_zero (env : DomEnv) (o : TimeOracle) (sA : NoxState)
    (h : (runCycleMain env o sA).state.qVisible = []) :
    (runCycleMain env o sA).state.consecutiveFrames = 0 := by
  simp only [runCycleMain] at h ⊢
  split at h
  · next hc => exact absurd h hc
  · next hc =>
      rw [if_neg hc]
      exact scheduleIdleWork_consecutiveFrames _

/-- Counter dynamics of a non-seeding `runCycle` on a live queue below the
breaker threshold: the counter resets exactly when the cycle ends with an
empty visible queue, and otherwise increments. -/
theorem runCycle_cf (env : DomEnv) (o : TimeOracle) (s : NoxState)
    (hcf : s.consecutiveFrames ≤ 60) (hne : s.qVisible ≠ []) :
    (runCycle env o [] false s).state.consecutiveFrames
      = if (runCycle env o [] false s).state.qVisible = [] then 0
        else s.consecutiveFrames + 1 := by
  simp only [runCycle]
  rw [if_neg (by omega)]
  rw [if_neg (fun hc => hne hc.1)]
  simp only [Bool.false_eq_true, if_false]
  by_cases hq : (runCycleMain env o { s with consecutiveFrames := s.consecutiveFrames + 1 }).state.qVisible = []
  · rw [if_pos hq]
    exact runCycleMain_cf_zero env o _ hq
  · rw [if_neg hq]
    exact runCycleMain_cf_pos env o _ hq

theorem runSeq_nil (env : DomEnv) (s : NoxState) : runSeq env [] s = s := rfl

theorem runSeq_take_succ (env : DomEnv) (os : List TimeOracle) (s : NoxState) (k : Nat)
    (hk : k < os.length) :
    runSeq env (os.take (k + 1)) s
      = (runCycle env os[k] [] false (runSeq env (os.take k) s)).state := by
  unfold runSeq
  rw [List.take_succ, List.getElem?_eq_getElem hk, Option.toList_some, List.foldl_append]
  rfl

/-- Claim C2 counterexample: 61 consecutive `runCycle(false)` invocations,
every one of which finds the visible queue non-empty (it stays `[0]`
throughout, as the counter value 61 also certifies), do NOT trigger the
circuit breaker — the document `MutationObserver` is still connected
afterwards, contradicting "exactly 61 consecutive invocations trigger the
circuit breaker, leaving all watchers disconnected". -/
theorem claim_C2_counterexample :
    ((List.range 61).all (fun k => (c2Step^[k] c2Base).qVisible == [0])) = true ∧
    (c2Step^[61] c2Base).qVisible = [0] ∧
    (c2Step^[61] c2Base).consecutiveFrames = 61 ∧
    (c2Step^[61] c2Base).moConnected = true := by
  refine ⟨?_, ?_, ?_, ?_⟩ <;> with_unfolding_all decide

/-- Claim C2 as amended: exactly 62 consecutive invocations of
`runCycle(false)`, none of which finds the visible queue empty (neither on
entry nor at the end-of-cycle check), trigger the circuit breaker: the 62nd
invocation self-invokes `destroy()`, leaving all watchers disconnected
(IntersectionObserver targets dropped, document MutationObserver and
ResizeObserver disconnected, scoped shadow observers disconnected and their
registry cleared); and any invocation that finds the visible queue empty
(when not seeding and before the breaker threshold) resets the counter. -/
theorem claim_C2_amended (env : DomEnv) (os : List TimeOracle) (s : NoxState)
    (hlen : os.length = 61) (hcf : s.consecutiveFrames = 0)
    (hne : ∀ k, k ≤ 61 → (runSeq env (os.take k) s).qVisible ≠ []) :
    (runSeq env os s).consecutiveFrames = 61 ∧
    (∀ o : TimeOracle,
      (runCycle env o [] false (runSeq env os s)).state.ioObserved = [] ∧
      (runCycle env o [] false (runSeq env os s)).state.moConnected = false ∧
      (runCycle env o [] false (runSeq env os s)).state.roObserved = [] ∧
      (runCycle env o [] false (runSeq env os s)).state.shadowObservers = []) ∧
    (∀ (t : NoxState) (o : TimeOracle), t.qVisible = [] → t.consecutiveFrames ≤ 60 →
      (runCycle env o [] false t).state.consecutiveFrames = 0) := by
  have htake : os.take 61 = os := by
    rw [← hlen]
    exact List.take_length os
  have hcount : ∀ k, k ≤ 61 → (runSeq env (os.take k) s).consecutiveFrames = k := by
    intro k
    induction k with
    | zero =>
      intro _
      simpa [runSeq] using hcf
    | succ k ih =>
      intro hk1
      have hk : k < os.length := by omega
      rw [runSeq_take_succ env os s k hk]
      rw [runCycle_cf env os[k] (runSeq env (os.take k) s)
        (by rw [ih (by omega)]; omega) (hne k (by omega))]
      have hneq : (runCycle env os[k] [] false (runSeq env (os.take k) s)).state.qVisible
          ≠ [] := by
        rw [← runSeq_take_succ env os s k hk]
        exact hne (k + 1) (by omega)
      rw [if_neg hneq, ih (by omega)]
  have hc61 : (runSeq env os s).consecutiveFrames = 61 := by
    have := hcount 61 le_rfl
    rwa [htake] at this
  refine ⟨hc61, ?_, ?_⟩
  · intro o
    simp only [runCycle]
    rw [if_pos (by rw [hc61]; omega)]
    exact ⟨rfl, rfl, rfl, rfl⟩
  · intro t o hq hcf60
    simp only [runCycle]
    rw [if_neg (by omega)]
    rw [if_pos ⟨hq, trivial⟩]

theorem runSeq_replicate (env : DomEnv) (o : TimeOracle) :
    ∀ (n : Nat) (s : NoxState),
    runSeq env (List.replicate n o) s
      = (fun t => (runCycle env o [] false t).state)^[n] s := by
  intro n
  induction n with
  | zero => intro s; rfl
  | succ n ih =>
    intro s
    rw [List.replicate_succ, Function.iterate_succ_apply]
    exact ih ((runCycle env o [] false s).state)

/-- On the stalled clock, the visible queue of the `c2Base` run is `[0]`
after every number of cycles up to 61. -/
theorem c2_iter_qVisible : ∀ k, k ≤ 61 → (c2Step^[k] c2Base).qVisible = [0] := by
  have hall : ((List.range 62).all (fun k => (c2Step^[k] c2Base).qVisible == [0])) = true := by
    with_unfolding_all decide
  intro k hk
  have hmem : k ∈ List.range 62 := List.mem_range.mpr (by omega)
  exact eq_of_beq (List.all_eq_true.mp hall k hmem)

/-- Instantiation of the amended circuit-breaker claim on a concrete run: 61
stalled cycles from `c2Base` leave the counter at 61, and a 62nd destroys. -/
theorem claim_C2_amended_witness :
    (runSeq envNonHTML (List.replicate 61 oStall) c2Base).consecutiveFrames = 61 ∧
    (runCycle envNonHTML oStall [] false
      (runSeq envNonHTML (List.replicate 61 oStall) c2Base)).state.moConnected = false :=
  have hrep : ∀ k : Nat, runSeq envNonHTML (List.replicate k oStall) c2Base
      = c2Step^[k] c2Base := fun k => runSeq_replicate envNonHTML oStall k c2Base
  have h := claim_C2_amended envNonHTML (List.replicate 61 oStall) c2Base
    (by with_unfolding_all decide) (by with_unfolding_all decide)
    (by
      intro k hk
      rw [List.take_replicate, min_eq_left hk, hrep k, c2_iter_qVisible k hk]
      simp)
  ⟨h.1, (h.2.1 oStall).2.1⟩

theorem claim_C6_witness :
    (7 : Elem) ∉ (runCycle envNonHTML oReadOnly [] false c6s).state.qVisible :=
  (claim_C6_cycle_ordering envNonHTML oReadOnly [] false c6s).2.1 (7, Classification.mid)
    (by with_unfolding_all decide)

/- ======================================================================
   Claim C4 — backpressure hysteresis
   ====================================================================== -/

/-- Claim C4: on every firing of `scheduleWork`'s coalesced microtask, if
`|visible| + |hidden| > maxQueue` and backpressure is not set, the
MutationWatcher is disconnected and backpressure becomes true; if
backpressure is set and the total drops below `0.8 * maxQueue`, the
MutationWatcher is reconnected and backpressure clears; for every total in
between, both the backpressure flag and the watcher connection are
unchanged (hysteresis). -/
theorem claim_C4_backpressure (s : NoxState) :
    (((s.qVisible.length + s.qHidden.length : Nat) : ℚ) > s.config.maxQueue →
      s.backpressure = false →
      (scheduleWorkMicrotask s).moConnected = false ∧
      (scheduleWorkMicrotask s).backpressure = true) ∧
    (s.backpressure = true →
      ((s.qVisible.length + s.qHidden.length : Nat) : ℚ) < 0.8 * s.config.maxQueue →
      (scheduleWorkMicrotask s).moConnected = true ∧
      (scheduleWorkMicrotask s).backpressure = false) ∧
    (0.8 * s.config.maxQueue ≤ ((s.qVisible.length + s.qHidden.length : Nat) : ℚ) →
      ((s.qVisible.length + s.qHidden.length : Nat) : ℚ) ≤ s.config.maxQueue →
      (scheduleWorkMicrotask s).backpressure = s.backpressure ∧
      (scheduleWorkMicrotask s).moConnected = s.moConnected) := by
  have hbp : ∀ t : NoxState, (scheduleWorkMicrotask t).backpressure
      = (backpressureCheck { t with microtaskScheduled := false }).backpressure := by
    intro t
    exact (scheduleFrameIfNeeded_bp _).1
  have hmo : ∀ t : NoxState, (scheduleWorkMicrotask t).moConnected
      = (backpressureCheck { t with microtaskScheduled := false }).moConnected := by
    intro t
    exact (scheduleFrameIfNeeded_bp _).2
  refine ⟨?_, ?_, ?_⟩
  · intro h1 h2
    rw [hmo, hbp]
    simp only [backpressureCheck]
    rw [if_pos h1, if_neg (by rw [h2]; exact Bool.false_ne_true)]
    exact ⟨rfl, rfl⟩
  · intro h1 h2
    have htotal : (0 : ℚ) ≤ ((s.qVisible.length + s.qHidden.length : Nat) : ℚ) :=
      Nat.cast_nonneg _
    rw [hmo, hbp]
    simp only [backpressureCheck]
    rw [if_neg (by intro hgt; nlinarith), if_pos ⟨h1, by linarith⟩]
    exact ⟨rfl, rfl⟩
  · intro h1 h2
    rw [hbp, hmo]
    simp only [backpressureCheck]
    rw [if_neg (not_lt.mpr h2), if_neg (fun hc => absurd hc.2 (not_lt.mpr (by linarith)))]
    exact ⟨rfl, rfl⟩

theorem claim_C4_witness :
    (scheduleWorkMicrotask c4s).moConnected = false ∧
    (scheduleWorkMicrotask c4s).backpressure = true :=
  (claim_C4_backpressure c4s).1 (by with_unfolding_all decide) (by with_unfolding_all decide)

/- ======================================================================
   Classifier claims — C1, C3, C9
   ====================================================================== -/

/-- `classifyMiss` stores the classification it returns under the supplied
fingerprint and never takes the cache-hit path. -/
theorem classifyMiss_cache (env : DomEnv) (cs : ComputedStyle) (key : String)
    (el : Elem) (s : NoxState) :
    ((classifyMiss env cs key el s).2).cache el
      = some ⟨(classifyMiss env cs key el s).1, key⟩ ∧
    ((classifyMiss env cs key el s).2).metrics.cacheHits = s.metrics.cacheHits := by
  unfold classifyMiss setCache
  repeat' split
  all_goals exact ⟨by simp, rfl⟩

/-- After classifying an `HTMLElement`, its cache entry holds the returned
classification under the current fingerprint. -/
theorem classify_cache_after (env : DomEnv) (el : Elem) (s : NoxState)
    (hhtml : env.isHTML el = true) :
    ((classify env el s).2).cache el
      = some ⟨(classify env el s).1, styleKeyForTone (env.style el)⟩ := by
  unfold classify
  rw [if_neg (by simp [hhtml])]
  cases hc : s.cache el with
  | none =>
    simp only [hc]
    exact (classifyMiss_cache env _ _ el s).1
  | some e =>
    simp only [hc]
    split
    · next heq =>
        show s.cache el = some ⟨e.classification, styleKeyForTone (env.style el)⟩
        rw [hc, ← heq]
    · exact (classifyMiss_cache env _ _ el s).1

/-- Claim C1: for every parsed background color with relative luminance `Y`,
a cache-missing `classify` on an `HTMLElement` returns `already-dark` when
`Y < darkThreshold` (default 0.10), `bright-bg` when `Y > brightThreshold`
(default 0.85), and `mid` otherwise; in particular at the exact boundary
values `Y = 0.10` and `Y = 0.85` the result is `mid`. -/
theorem claim_C1_luminance_thresholds (env : DomEnv) (el : Elem) (s : NoxState)
    (rgb : Option ℚ × Option ℚ × Option ℚ) (Y : ℚ)
    (hhtml : env.isHTML el = true)
    (hmiss : ∀ e : CacheEntry, s.cache el = some e →
      e.styleKey ≠ styleKeyForTone (env.style el))
    (hparse : parseColor (env.style el).backgroundColor = some rgb)
    (hY : luma env.pow24 rgb = some Y)
    (hdark : s.config.darkThreshold = 0.10)
    (hbright : s.config.brightThreshold = 0.85) :
    (Y < 0.10 → (classify env el s).1 = Classification.alreadyDark) ∧
    (Y > 0.85 → (classify env el s).1 = Classification.brightBg) ∧
    (0.10 ≤ Y → Y ≤ 0.85 → (classify env el s).1 = Classification.mid) ∧
    (Y = 0.10 → (classify env el s).1 = Classification.mid) ∧
    (Y = 0.85 → (classify env el s).1 = Classification.mid) := by
  have hcl : (classify env el s).1
      = (classifyMiss env (env.style el) (styleKeyForTone (env.style el)) el s).1 := by
    unfold classify
    rw [if_neg (by simp [hhtml])]
    cases hc : s.cache el with
    | none => simp only [hc]
    | some e =>
      simp only [hc]
      rw [if_neg (hmiss e hc)]
  have hval : (classify env el s).1
      = (if Y < s.config.darkThreshold then Classification.alreadyDark
         else if Y > s.config.brightThreshold then Classification.brightBg
         else Classification.mid) := by
    rw [hcl]
    unfold classifyMiss
    simp only [hparse, hY]
  rw [hdark, hbright] at hval
  refine ⟨?_, ?_, ?_, ?_, ?_⟩
  · intro h
    rw [hval, if_pos h]
  · intro h
    rw [hval, if_neg (by norm_num; linarith), if_pos h]
  · intro h1 h2
    rw [hval, if_neg (by linarith), if_neg (by simp; linarith)]
  · intro h
    rw [hval, if_neg (by linarith), if_neg (by simp; linarith)]
  · intro h
    rw [hval, if_neg (by norm_num; linarith), if_neg (by simp; linarith)]

set_option maxRecDepth 4000 in
theorem claim_C1_witness :
    (classify envDark 0 (initState DEFAULTS)).1 = Classification.alreadyDark :=
  (claim_C1_luminance_thresholds envDark 0 (initState DEFAULTS)
    (some 5, some 5, some 5) (25 / 16473)
    rfl (fun _ he => Option.noConfusion he)
    (by with_unfolding_all rfl) (by with_unfolding_all rfl) rfl rfl).1
    (by norm_num)

/-- Claim C3 is a code bug: the fully transparent color `rgba(0, 0, 0, 0)` —
the computed background of every unstyled element — is NOT unparsable to
`parseColor`: the regex ignores the alpha channel and parses it as black,
whose luminance 0 is below the dark threshold, so `classify` returns
`already-dark` instead of the documented `mid` ("Transparent or invalid,
assume mid"). Genuinely unparsable colors (e.g. the named color `red`) do
take the documented path: `mid`, cached under the current fingerprint. -/
theorem claim_C3_transparent_misparsed :
    parseColor ("rgba(0, 0, 0, 0)") = some (some 0, some 0, some 0) ∧
    luma (fun x => x) (some 0, some 0, some 0) = some 0 ∧
    (classify envTransparent 0 (initState DEFAULTS)).1 = Classification.alreadyDark ∧
    (classify envTransparent 0 (initState DEFAULTS)).1 ≠ Classification.mid ∧
    parseColor ("red") = none ∧
    (classify envNamed 0 (initState DEFAULTS)).1 = Classification.mid ∧
    ((classify envNamed 0 (initState DEFAULTS)).2).cache 0
      = some ⟨Classification.mid, styleKeyForTone (envNamed.style 0)⟩ := by
  refine ⟨?_, ?_, ?_, ?_, ?_, ?_, ?_⟩ <;> with_unfolding_all decide

/-- Claim C9 counterexample: for a node that is not an `HTMLElement` (e.g.
SVG content), classifying twice with an unchanged fingerprint yields the
same `mid` classification but never takes the cache-hit path: `cacheHits`
stays 0 on the second call and no cache entry is ever written, contradicting
"takes the cache-hit path (incrementing the cacheHits counter)". -/
theorem claim_C9_counterexample :
    (classify envNonHTML 0 (classify envNonHTML 0 (initState DEFAULTS)).2).1
      = (classify envNonHTML 0 (initState DEFAULTS)).1 ∧
    ((classify envNonHTML 0 (classify envNonHTML 0 (initState DEFAULTS)).2).2).metrics.cacheHits
      = 0 ∧
    ((classify envNonHTML 0 (classify envNonHTML 0 (initState DEFAULTS)).2).2).cache 0
      = none := by
  refine ⟨?_, ?_, ?_⟩ <;> with_unfolding_all decide

/-- Claim C9 as amended: for `HTMLElement` nodes, classifying the same node a
second time while its style fingerprint is unchanged returns the identical
classification via the cache-hit path — the `cacheHits` counter is
incremented and the cache entry is not rewritten; a node that is not an
`HTMLElement` classifies to `mid` both times without touching the scheduler
state at all. -/
theorem claim_C9_amended (env : DomEnv) (el : Elem) (s : NoxState) :
    (env.isHTML el = true →
      (classify env el (classify env el s).2).1 = (classify env el s).1 ∧
      ((classify env el (classify env el s).2).2).metrics.cacheHits
        = ((classify env el s).2).metrics.cacheHits + 1 ∧
      ((classify env el (classify env el s).2).2).cache = ((classify env el s).2).cache) ∧
    (env.isHTML el = false →
      classify env el s = (Classification.mid, s)) := by
  constructor
  · intro hhtml
    rcases hres : classify env el s with ⟨c1, s1⟩
    have hent : s1.cache el = some ⟨c1, styleKeyForTone (env.style el)⟩ := by
      have h := classify_cache_after env el s hhtml
      rw [hres] at h
      exact h
    have h2 : classify env el s1
        = (c1, { s1 with metrics := { s1.metrics with
            cacheHits := s1.metrics.cacheHits + 1 } }) := by
      unfold classify
      rw [if_neg (by simp [hhtml])]
      simp only [hent]
      rw [if_pos trivial]
    refine ⟨?_, ?_, ?_⟩
    · show (classify env el s1).1 = c1
      rw [h2]
    · show (classify env el s1).2.metrics.cacheHits = s1.metrics.cacheHits + 1
      rw [h2]
    · show (classify env el s1).2.cache = s1.cache
      rw [h2]
  · intro hfalse
    unfold classify
    rw [if_pos hfalse]

theorem claim_C9_witness :
    (classify envWhite 0 (classify envWhite 0 (initState DEFAULTS)).2).1
      = (classify envWhite 0 (initState DEFAULTS)).1 ∧
    ((classify envWhite 0 (classify envWhite 0 (initState DEFAULTS)).2).2).metrics.cacheHits
      = ((classify envWhite 0 (initState DEFAULTS)).2).metrics.cacheHits + 1 ∧
    ((classify envWhite 0 (classify envWhite 0 (initState DEFAULTS)).2).2).cache
      = ((classify envWhite 0 (initState DEFAULTS)).2).cache :=
  (claim_C9_amended envWhite 0 (initState DEFAULTS)).1 rfl

/- ======================================================================
   Claim C8 — frame scheduling and the stale frameId
   ====================================================================== -/

/-- Claim C8 is a code bug: `runCycle` never clears `frameId` when the frame
callback fires, so after one completed cycle the field holds a stale handle.
The reachable state `c8s6` has the coalesced microtask pending, a non-empty
visible queue, and no frame callback genuinely pending — yet when the
microtask fires, `!this.frameId` is false and NO frame callback is
scheduled, contradicting "if no frame callback is actually pending and the
visible queue is non-empty, a frame callback is scheduled". -/
theorem claim_C8_stale_frameId :
    Reachable DEFAULTS c8s6 ∧
    c8s6.microtaskScheduled = true ∧
    c8s6.framePending = false ∧
    c8s6.qVisible = [1] ∧
    c8s6.frameId = some 1 ∧
    (scheduleWorkMicrotask c8s6).framePending = false ∧
    (scheduleWorkMicrotask c8s6).frameId = some 1 := by
  refine ⟨?_, ?_, ?_, ?_, ?_, ?_, ?_⟩
  · exact Relation.ReflTransGen.tail
      (Relation.ReflTransGen.tail
        (Relation.ReflTransGen.tail
          (Relation.ReflTransGen.tail
            (Relation.ReflTransGen.tail
              (Relation.ReflTransGen.tail Relation.ReflTransGen.refl
                (Step.enqueueStep 0 (initState DEFAULTS)))
              (Step.ioStep [(0, true)] c8s1 (by with_unfolding_all decide)))
            (Step.microtaskStep c8s2 (by with_unfolding_all rfl)))
          (Step.frameStep envNonHTML oGo c8s3 (by with_unfolding_all rfl)))
        (Step.enqueueStep 1 c8s4))
      (Step.ioStep [(1, true)] c8s5 (by with_unfolding_all decide))
  all_goals with_unfolding_all decide

/- ======================================================================
   Claim C10 — destroy leaves queues, cache, and the attachShadow hook
   ====================================================================== -/

theorem scheduleWork_shadowObservers (s : NoxState) :
    (scheduleWork s).shadowObservers = s.shadowObservers := by
  unfold scheduleWork
  split <;> rfl

theorem enqueue_shadowObservers (s : NoxState) (el : Elem) :
    (enqueue s el).shadowObservers = s.shadowObservers := by
  unfold enqueue
  split
  · rfl
  · exact scheduleWork_shadowObservers _

theorem foldl_enqueue_shadowObservers (l : List Elem) (s : NoxState) :
    (l.foldl enqueue s).shadowObservers = s.shadowObservers := by
  induction l generalizing s with
  | nil => rfl
  | cons x t ih => rw [List.foldl_cons, ih, enqueue_shadowObservers]

/-- Claim C10: `destroy()` leaves the visible queue, the hidden queue, the
cache and the `attachShadow` interception installed at construction
unchanged; only the observers are disconnected (IntersectionObserver targets
dropped, MutationObserver and ResizeObserver disconnected, scoped shadow
observers cleared) and pending frame/idle callbacks cancelled. An open-mode
`attachShadow` call made after `destroy()` is therefore still intercepted
and registers a fresh scoped MutationObserver in the cleared registry. -/
theorem claim_C10_destroy_preserves (s : NoxState) (sid : ShadowId) (seedEls : List Elem)
    (hhook : s.attachShadowHooked = true)
    (hfp : s.framePending = true → s.frameId.isSome = true)
    (hip : s.idlePending = true → s.idleId.isSome = true) :
    (destroy s).qVisible = s.qVisible ∧
    (destroy s).qHidden = s.qHidden ∧
    (destroy s).cache = s.cache ∧
    (destroy s).attachShadowHooked = true ∧
    (destroy s).ioObserved = [] ∧
    (destroy s).moConnected = false ∧
    (destroy s).roObserved = [] ∧
    (destroy s).shadowObservers = [] ∧
    (destroy s).framePending = false ∧
    (destroy s).idlePending = false ∧
    (attachShadow sid seedEls true (destroy s)).shadowObservers = [sid] := by
  have h9 : (destroy s).framePending = false := by
    unfold destroy
    by_cases hf : s.frameId.isSome = true
    · simp only [hf, if_true]
    · simp only [hf, if_false]
      cases hfp2 : s.framePending
      · rfl
      · exact absurd (hfp hfp2) hf
  have h10 : (destroy s).idlePending = false := by
    unfold destroy
    by_cases hf : s.idleId.isSome = true
    · simp only [hf, if_true]
    · simp only [hf, if_false]
      cases hip2 : s.idlePending
      · rfl
      · exact absurd (hip hip2) hf
  refine ⟨rfl, rfl, rfl, hhook, rfl, rfl, rfl, rfl, h9, h10, ?_⟩
  unfold attachShadow
  rw [if_pos ⟨hhook, rfl⟩]
  unfold patchShadow
  rw [foldl_enqueue_shadowObservers]
  show jsAdd sid [] = [sid]
  simp [jsAdd]

theorem claim_C10_witness :
    (destroy c2Base).qVisible = c2Base.qVisible ∧
    (destroy c2Base).qHidden = c2Base.qHidden ∧
    (destroy c2Base).cache = c2Base.cache ∧
    (destroy c2Base).attachShadowHooked = true ∧
    (destroy c2Base).ioObserved = [] ∧
    (destroy c2Base).moConnected = false ∧
    (destroy c2Base).roObserved = [] ∧
    (destroy c2Base).shadowObservers = [] ∧
    (destroy c2Base).framePending = false ∧
    (destroy c2Base).idlePending = false ∧
    (attachShadow 9 [] true (destroy c2Base)).shadowObservers = [9] :=
  claim_C10_destroy_preserves c2Base 9 [] rfl
    (fun _ => rfl) (by with_unfolding_all decide)

end Nox
